import Mathlib

/-!
Shallow embedding of `neopixel_rp2040.py` (class `neopixel`): a MicroPython
driver for WS2812B LED chains on the RP2040.  The driver keeps a buffer of
packed 24-bit color words (one per LED), mutates it through `set`, `reset`
and `setBrightness`, and pushes the whole buffer to a PIO state machine with
`StateMachine.put`.

Modelling conventions:
* the `array.array("I", ...)` buffer is a `List Nat`; indexing follows Python
  semantics (negative indices wrap, out-of-range raises `IndexError`, storing
  a negative value raises `OverflowError`);
* Python floats (the `BRIGHTNESS` arguments) are modelled as exact rationals;
  `int(x)` on a float is truncation toward zero (`pyInt`);
* the PIO peripheral is modelled by recording each `put` call: `transmits`
  is the list of buffer snapshots handed to the state machine, in order;
* a raised exception aborts the rest of the method body (in particular it
  skips a later `put`), but mutations already performed on the buffer stay,
  exactly as in Python.
-/

set_option maxHeartbeats 1000000

namespace Neopixel

/-- Runtime errors a method body can raise (Python exception classes). -/
inductive PyError where
  | indexError
  | overflowError
  | typeError
deriving DecidableEq

/-- Python sequence index resolution: `0 ≤ i < len` is used as is, a negative
`i` with `-len ≤ i` wraps to `len + i`, anything else is out of range. -/
def pyIdx (len : Nat) (i : Int) : Option Nat :=
  if 0 ≤ i ∧ i < (len : Int) then some i.toNat
  else if -(len : Int) ≤ i ∧ i < 0 then some ((len : Int) + i).toNat
  else none

/-- Reading `buf[i]` with Python indexing; raises `IndexError` out of range. -/
def pyRead (buf : List Nat) (i : Int) : Except PyError Nat :=
  match pyIdx buf.length i with
  | some j => .ok (buf.getD j 0)
  | none => .error .indexError

/-- Writing `buf[i] = v` into an `array.array("I", ...)`: Python indexing,
`IndexError` out of range, `OverflowError` for a negative value. -/
def pyWrite (buf : List Nat) (i : Int) (v : Int) : Except PyError (List Nat) :=
  match pyIdx buf.length i with
  | some j => if v < 0 then .error .overflowError else .ok (buf.set j v.toNat)
  | none => .error .indexError

/-- Python `int()` applied to a (here: rational-valued) float: truncation
toward zero. -/
def pyInt (q : ℚ) : Int := if 0 ≤ q then ⌊q⌋ else -⌊-q⌋

/-- Python `range(a, b)` as the list of integers `a, a+1, ..., b-1`. -/
def pyRange (a b : Int) : List Int :=
  (List.range (b - a).toNat).map (fun k : Nat => a + (k : Int))

/-- State of one `neopixel` instance.  `buffer` is `__bitstreamArray`,
`brightnessOffset` is `__brightnessOffset`, and `transmits` records every
`__stateMachine.put(__bitstreamArray, 8)` call (full-buffer snapshots). -/
structure NeoState where
  numLED : Int
  dataPin : Int
  buffer : List Nat
  brightnessOffset : ℚ
  transmits : List (List Nat)
deriving DecidableEq

/-- `RGB(R, G, B) = int(R << 16 | G << 8 | B)` from the source. -/
def RGB (R G B : Nat) : Nat := R <<< 16 ||| G <<< 8 ||| B

def BLACK : Nat := RGB 0 0 0

def WHITE : Nat := RGB 255 255 255

def RED : Nat := RGB 255 0 0

def GREEN : Nat := RGB 0 255 0

def BLUE : Nat := RGB 0 0 255

def YELLOW : Nat := RGB 255 255 0

def MAGENTA : Nat := RGB 255 0 255

def CYAN : Nat := RGB 0 255 255

def COLORS : List Nat := [BLACK, RED, GREEN, BLUE, CYAN, MAGENTA, YELLOW, WHITE]

/-- `self.__stateMachine.put(self.__bitstreamArray, 8)`: the transmit records
the current buffer. -/
def transmit (s : NeoState) : NeoState :=
  { s with transmits := s.transmits ++ [s.buffer] }

/-- A `for i in idxs: buf[i] = v` loop; stops at the first raised exception,
keeping the writes already done (Python semantics). -/
def writeRangeSt (buf : List Nat) (idxs : List Int) (v : Int) :
    List Nat × Option PyError :=
  match idxs with
  | [] => (buf, none)
  | i :: rest =>
    match pyWrite buf i v with
    | .error e => (buf, some e)
    | .ok buf2 => writeRangeSt buf2 rest v

/-- Lines 141-145 of the source: per-channel brightness scaling of `COLOR`
followed by repacking.  `red` is taken from bits 8-15 of `COLOR`, `green`
from bits 16-23, `blue` from bits 0-7, and the repacked word is
`(green << 16) + (red << 8) + blue`. -/
def sampleWord (COLOR : Nat) (BRIGHTNESS : ℚ) : Int :=
  let red := pyInt ((((COLOR >>> 8) &&& 0xFF : Nat) : ℚ) * BRIGHTNESS)
  let green := pyInt ((((COLOR >>> 16) &&& 0xFF : Nat) : ℚ) * BRIGHTNESS)
  let blue := pyInt (((COLOR &&& 0xFF : Nat) : ℚ) * BRIGHTNESS)
  green * 2 ^ 16 + red * 2 ^ 8 + blue

/-- Lines 138-139 of the source: `if COLOR == None: COLOR = int(G << 16 | R << 8 | B)`. -/
def colorArg (R G B : Nat) (COLOR : Option Nat) : Nat :=
  match COLOR with
  | some c => c
  | none => G <<< 16 ||| R <<< 8 ||| B

/-- `neopixel.set(LED_NUMBER, START_LED, STOP_LED, R, G, B, COLOR, BRIGHTNESS)`.
`COLOR = None` falls back to `int(G << 16 | R << 8 | B)`; the computed sample
is written to the selected slots and the whole buffer is transmitted. -/
def set (s : NeoState) (LED_NUMBER START_LED STOP_LED : Option Int)
    (R G B : Nat) (COLOR : Option Nat) (BRIGHTNESS : ℚ) :
    NeoState × Option PyError :=
  let s1 := { s with brightnessOffset := BRIGHTNESS }
  let RGB_SAMPLE := sampleWord (colorArg R G B COLOR) BRIGHTNESS
  match START_LED, STOP_LED with
  | none, none =>
    match LED_NUMBER with
    | none =>
      match writeRangeSt s1.buffer (pyRange 0 s1.numLED) RGB_SAMPLE with
      | (buf, some e) => ({ s1 with buffer := buf }, some e)
      | (buf, none) => (transmit { s1 with buffer := buf }, none)
    | some n =>
      match pyWrite s1.buffer n RGB_SAMPLE with
      | .error e => (s1, some e)
      | .ok buf => (transmit { s1 with buffer := buf }, none)
  | some a, some b =>
    match writeRangeSt s1.buffer (pyRange a (b + 1)) RGB_SAMPLE with
    | (buf, some e) => ({ s1 with buffer := buf }, some e)
    | (buf, none) => (transmit { s1 with buffer := buf }, none)
  | _, _ => (s1, some .typeError)

/-- `neopixel.reset(LED_NUMBER, START_LED, STOP_LED)`: zeroes the selected
slots.  The single-index and all-LEDs branches transmit; the range branch
returns without any `put` (source lines 180-182). -/
def reset (s : NeoState) (LED_NUMBER START_LED STOP_LED : Option Int) :
    NeoState × Option PyError :=
  match START_LED, STOP_LED with
  | none, none =>
    match LED_NUMBER with
    | none =>
      match writeRangeSt s.buffer (pyRange 0 s.numLED) 0 with
      | (buf, some e) => ({ s with buffer := buf }, some e)
      | (buf, none) => (transmit { s with buffer := buf }, none)
    | some n =>
      match pyWrite s.buffer n 0 with
      | .error e => (s, some e)
      | .ok buf => (transmit { s with buffer := buf }, none)
  | some a, some b =>
    match writeRangeSt s.buffer (pyRange a (b + 1)) 0 with
    | (buf, e) => ({ s with buffer := buf }, e)
  | _, _ => (s, some .typeError)

/-- A `for i in idxs: buf[i] = int(b * buf[i])` loop (whole-word rescale),
stopping at the first raised exception. -/
def scaleRangeSt (buf : List Nat) (idxs : List Int) (b : ℚ) :
    List Nat × Option PyError :=
  match idxs with
  | [] => (buf, none)
  | i :: rest =>
    match pyRead buf i with
    | .error e => (buf, some e)
    | .ok w =>
      match pyWrite buf i (pyInt (b * (w : ℚ))) with
      | .error e => (buf, some e)
      | .ok buf2 => scaleRangeSt buf2 rest b

/-- `neopixel.setBrightness(LED_NUMBER, BRIGHTNESS, START_LED, STOP_LED)`:
multiplies each selected already-packed word by `BRIGHTNESS` and truncates,
then transmits the whole buffer (all three selector branches share the final
`put`, which a raised exception skips). -/
def setBrightness (s : NeoState) (LED_NUMBER : Option Int) (BRIGHTNESS : ℚ)
    (START_LED STOP_LED : Option Int) : NeoState × Option PyError :=
  let s1 := { s with brightnessOffset := BRIGHTNESS }
  match START_LED, STOP_LED with
  | none, none =>
    match LED_NUMBER with
    | none =>
      match scaleRangeSt s1.buffer (pyRange 0 s1.numLED) BRIGHTNESS with
      | (buf, some e) => ({ s1 with buffer := buf }, some e)
      | (buf, none) => (transmit { s1 with buffer := buf }, none)
    | some n =>
      match scaleRangeSt s1.buffer [n] BRIGHTNESS with
      | (buf, some e) => ({ s1 with buffer := buf }, some e)
      | (buf, none) => (transmit { s1 with buffer := buf }, none)
  | some a, some b =>
    match scaleRangeSt s1.buffer (pyRange a (b + 1)) BRIGHTNESS with
    | (buf, some e) => ({ s1 with buffer := buf }, some e)
    | (buf, none) => (transmit { s1 with buffer := buf }, none)
  | _, _ => (s1, some .typeError)

/-- `neopixel.__init__(LEDS, PIN)`: stores the configuration, allocates the
zero buffer `[0 for _ in range(LEDS)]` and calls `self.reset()` (which
transmits).  The state-machine construction itself is the peripheral
collaborator and carries no buffer state. -/
def init (LEDS PIN : Int) : NeoState × Option PyError :=
  let s : NeoState :=
    { numLED := LEDS
      dataPin := PIN
      buffer := List.replicate LEDS.toNat 0
      brightnessOffset := 1
      transmits := [] }
  reset s none none none

end Neopixel

namespace Neopixel

theorem pyIdx_of_nonneg {len : Nat} {i : Int} (h0 : 0 ≤ i) (h1 : i < (len : Int)) :
    pyIdx len i = some i.toNat := by
  simp [pyIdx, h0, h1]

theorem pyIdx_lt {len : Nat} {i : Int} {j : Nat} (h : pyIdx len i = some j) :
    j < len := by
  unfold pyIdx at h
  split at h
  · next hc => cases h; omega
  · split at h
    · next hc2 =>
      cases h
      next hc => omega
    · cases h

theorem pyWrite_ok {buf : List Nat} {i : Int} {j : Nat} {v : Int}
    (hj : pyIdx buf.length i = some j) (hv : 0 ≤ v) :
    pyWrite buf i v = .ok (buf.set j v.toNat) := by
  simp [pyWrite, hj, Int.not_lt.mpr hv]

theorem pyWrite_err {buf : List Nat} {i : Int} {v : Int}
    (h : pyIdx buf.length i = none) :
    pyWrite buf i v = .error .indexError := by
  simp [pyWrite, h]

theorem pyRead_ok {buf : List Nat} {i : Int} {j : Nat}
    (hj : pyIdx buf.length i = some j) :
    pyRead buf i = .ok (buf.getD j 0) := by
  simp [pyRead, hj]

theorem mem_pyRange {a b j : Int} : j ∈ pyRange a b ↔ a ≤ j ∧ j < b := by
  constructor
  · intro h
    rw [pyRange] at h
    obtain ⟨k, hk, rfl⟩ := List.mem_map.mp h
    rw [List.mem_range] at hk
    omega
  · intro h
    rw [pyRange]
    exact List.mem_map.mpr ⟨(j - a).toNat, List.mem_range.mpr (by omega), by omega⟩

theorem writeRangeSt_ok {v : Int} (hv : 0 ≤ v) :
    ∀ (idxs : List Int) (buf : List Nat),
      (∀ i ∈ idxs, 0 ≤ i ∧ i < (buf.length : Int)) →
      (writeRangeSt buf idxs v).2 = none ∧
      (writeRangeSt buf idxs v).1.length = buf.length ∧
      ∀ j : Nat, (writeRangeSt buf idxs v).1[j]? =
        if (j : Int) ∈ idxs then some v.toNat else buf[j]? := by
  intro idxs
  induction idxs with
  | nil =>
    intro buf _
    simp [writeRangeSt]
  | cons i rest ih =>
    intro buf hvalid
    obtain ⟨hi0, hilt⟩ := hvalid i (List.mem_cons_self _ _)
    have hw : pyWrite buf i v = .ok (buf.set i.toNat v.toNat) :=
      pyWrite_ok (pyIdx_of_nonneg hi0 hilt) hv
    have hrec := ih (buf.set i.toNat v.toNat) (by
      intro x hx
      have := hvalid x (List.mem_cons_of_mem _ hx)
      simpa using this)
    have hstep : writeRangeSt buf (i :: rest) v =
        writeRangeSt (buf.set i.toNat v.toNat) rest v := by
      simp [writeRangeSt, hw]
    rw [hstep]
    refine ⟨hrec.1, by simpa using hrec.2.1, ?_⟩
    intro j
    rw [hrec.2.2 j]
    by_cases hjr : (j : Int) ∈ rest
    · simp [hjr, List.mem_cons]
    · by_cases hji : (j : Int) = i
      · have hjt : i.toNat = j := by omega
        have hjlen : j < buf.length := by omega
        subst hjt
        simp [hjr, hji, List.mem_cons, List.getElem?_set_self hjlen]
      · have hne : i.toNat ≠ j := by omega
        simp [hjr, hji, List.mem_cons, List.getElem?_set_ne hne]

theorem List_set_getD_self {l : List Nat} {j : Nat} (h : j < l.length) :
    l.set j (l.getD j 0) = l := by
  apply List.ext_getElem?
  intro n
  by_cases hn : j = n
  · subst hn
    rw [List.getElem?_set_self h]
    simp [List.getD_eq_getElem?_getD, List.getElem?_eq_getElem h]
  · rw [List.getElem?_set_ne hn]

theorem pyInt_natCast (w : Nat) : pyInt (w : ℚ) = (w : Int) := by
  simp [pyInt, Int.floor_natCast]

theorem pyInt_of_nonneg {q : ℚ} (h : 0 ≤ q) : pyInt q = ⌊q⌋ := by
  simp [pyInt, h]

theorem scaleRangeSt_cons_ok {buf : List Nat} {i : Int} {j : Nat} {b : ℚ}
    {rest : List Int} (hj : pyIdx buf.length i = some j)
    (hnn : 0 ≤ pyInt (b * ((buf.getD j 0 : Nat) : ℚ))) :
    scaleRangeSt buf (i :: rest) b =
      scaleRangeSt (buf.set j (pyInt (b * ((buf.getD j 0 : Nat) : ℚ))).toNat) rest b := by
  simp only [scaleRangeSt, pyRead_ok hj, pyWrite_ok hj hnn]

theorem scaleRangeSt_cons_err {buf : List Nat} {i : Int} {b : ℚ}
    {rest : List Int} (hj : pyIdx buf.length i = none) :
    scaleRangeSt buf (i :: rest) b = (buf, some .indexError) := by
  have hr : pyRead buf i = .error .indexError := by
    simp only [pyRead, hj]
  simp only [scaleRangeSt, hr]

theorem scaleRangeSt_one_fst :
    ∀ (idxs : List Int) (buf : List Nat), (scaleRangeSt buf idxs 1).1 = buf := by
  intro idxs
  induction idxs with
  | nil =>
    intro buf
    rfl
  | cons i rest ih =>
    intro buf
    cases hj : pyIdx buf.length i with
    | none =>
      rw [scaleRangeSt_cons_err hj]
    | some j =>
      have hval : pyInt (1 * ((buf.getD j 0 : Nat) : ℚ)) = ((buf.getD j 0 : Nat) : Int) := by
        rw [one_mul, pyInt_natCast]
      have hnn : 0 ≤ pyInt (1 * ((buf.getD j 0 : Nat) : ℚ)) := by
        rw [hval]
        positivity
      rw [scaleRangeSt_cons_ok hj hnn, hval, Int.toNat_natCast,
        List_set_getD_self (pyIdx_lt hj), ih]

end Neopixel


namespace Neopixel

theorem pyInt_nonneg {q : ℚ} (h : 0 ≤ q) : 0 ≤ pyInt q := by
  rw [pyInt_of_nonneg h]
  exact Int.floor_nonneg.mpr h

theorem pyInt_half (w : Nat) :
    pyInt ((1 / 2 : ℚ) * (w : ℚ)) = ((w / 2 : Nat) : Int) := by
  have h0 : (0 : ℚ) ≤ (1 / 2 : ℚ) * (w : ℚ) := by positivity
  have h1 : ((1 / 2 : ℚ) * (w : ℚ)) = ((w : ℤ) : ℚ) / ((2 : ℕ) : ℚ) := by
    push_cast
    ring
  rw [pyInt_of_nonneg h0, h1, Rat.floor_intCast_div_natCast]
  omega

theorem RGB_eq {r g b : Nat} (hg : g < 256) (hb : b < 256) :
    RGB r g b = r * 65536 + g * 256 + b := by
  have hb8 : b < 2 ^ 8 := by omega
  have h1 : g <<< 8 ||| b = 2 ^ 8 * g + b := by
    rw [Nat.shiftLeft_eq, Nat.mul_comm, Nat.mul_add_lt_is_or hb8 g]
  have hlt : 2 ^ 8 * g + b < 2 ^ 16 := by
    have : 2 ^ 8 * g + b < 2 ^ 8 * 256 := by omega
    omega
  have h2 : r <<< 16 ||| (g <<< 8 ||| b) = 2 ^ 16 * r + (2 ^ 8 * g + b) := by
    rw [h1, Nat.shiftLeft_eq, Nat.mul_comm, Nat.mul_add_lt_is_or hlt r]
  rw [RGB, Nat.lor_assoc, h2]
  ring

theorem bytes_recompose {c : Nat} (hc : c < 2 ^ 24) :
    ((c >>> 16) &&& 255) * 65536 + ((c >>> 8) &&& 255) * 256 + (c &&& 255) = c := by
  have e255 : (255 : Nat) = 2 ^ 8 - 1 := by norm_num
  have h16 : c >>> 16 = c / 2 ^ 16 := Nat.shiftRight_eq_div_pow c 16
  have h8 : c >>> 8 = c / 2 ^ 8 := Nat.shiftRight_eq_div_pow c 8
  have m16 : (c / 2 ^ 16) &&& 255 = c / 2 ^ 16 % 2 ^ 8 := by
    rw [e255, Nat.and_pow_two_sub_one_eq_mod]
  have m8 : (c / 2 ^ 8) &&& 255 = c / 2 ^ 8 % 2 ^ 8 := by
    rw [e255, Nat.and_pow_two_sub_one_eq_mod]
  have m0 : c &&& 255 = c % 2 ^ 8 := by
    rw [e255, Nat.and_pow_two_sub_one_eq_mod]
  rw [h16, h8, m16, m8, m0]
  omega

theorem sampleWord_eq_floor {b : ℚ} (hb : 0 ≤ b) (c : Nat) :
    sampleWord c b =
      ⌊(((c >>> 16) &&& 255 : Nat) : ℚ) * b⌋ * 2 ^ 16 +
        ⌊(((c >>> 8) &&& 255 : Nat) : ℚ) * b⌋ * 2 ^ 8 +
        ⌊((c &&& 255 : Nat) : ℚ) * b⌋ := by
  have hnn : ∀ w : Nat, (0 : ℚ) ≤ (w : ℚ) * b := fun w => mul_nonneg (by positivity) hb
  simp only [sampleWord, pyInt_of_nonneg (hnn _)]
  norm_num

theorem sampleWord_nonneg {b : ℚ} (hb : 0 ≤ b) (c : Nat) : 0 ≤ sampleWord c b := by
  have hnn : ∀ w : Nat, (0 : ℚ) ≤ (w : ℚ) * b := fun w => mul_nonneg (by positivity) hb
  have hf : ∀ w : Nat, 0 ≤ ⌊(w : ℚ) * b⌋ := fun w => Int.floor_nonneg.mpr (hnn w)
  rw [sampleWord_eq_floor hb]
  have h1 := hf ((c >>> 16) &&& 255)
  have h2 := hf ((c >>> 8) &&& 255)
  have h3 := hf (c &&& 255)
  positivity

theorem sampleWord_one (c : Nat) :
    sampleWord c 1 =
      ((((c >>> 16) &&& 255) * 65536 + ((c >>> 8) &&& 255) * 256 + (c &&& 255) : Nat) : Int) := by
  simp only [sampleWord, mul_one, pyInt_natCast]
  push_cast
  ring

theorem sampleWord_one_of_lt {c : Nat} (hc : c < 2 ^ 24) :
    sampleWord c 1 = (c : Int) := by
  rw [sampleWord_one, bytes_recompose hc]

end Neopixel

namespace Neopixel

theorem init_eq (L P : Int) :
    init L P =
      ({ numLED := L, dataPin := P, buffer := List.replicate L.toNat 0,
         brightnessOffset := 1, transmits := [List.replicate L.toNat 0] }, none) := by
  have hval : ∀ i ∈ pyRange 0 L,
      0 ≤ i ∧ i < ((List.replicate L.toNat (0 : Nat)).length : Int) := by
    intro i hi
    rw [mem_pyRange] at hi
    simp only [List.length_replicate]
    omega
  have h := writeRangeSt_ok (v := (0 : Int)) le_rfl (pyRange 0 L)
    (List.replicate L.toNat 0) hval
  have hbuf : (writeRangeSt (List.replicate L.toNat 0) (pyRange 0 L) 0).1 =
      List.replicate L.toNat 0 := by
    apply List.ext_getElem?
    intro j
    rw [h.2.2 j]
    by_cases hj : (j : Int) ∈ pyRange 0 L
    · rw [if_pos hj, mem_pyRange] at *
      have hjL : j < L.toNat := by omega
      simp [List.getElem?_replicate, hjL]
    · rw [if_neg hj]
  have hpair : writeRangeSt (List.replicate L.toNat 0) (pyRange 0 L) 0 =
      (List.replicate L.toNat 0, none) := Prod.ext hbuf h.1
  simp only [init, reset, hpair]
  rfl

theorem set_single_ok {s : NeoState} {n : Int} {j : Nat} {R G B : Nat}
    {CO : Option Nat} {b : ℚ}
    (hj : pyIdx s.buffer.length n = some j)
    (hnn : 0 ≤ sampleWord (colorArg R G B CO) b) :
    set s (some n) none none R G B CO b =
      (transmit { s with brightnessOffset := b,
                         buffer := s.buffer.set j
                           (sampleWord (colorArg R G B CO) b).toNat }, none) := by
  have hw : pyWrite s.buffer n (sampleWord (colorArg R G B CO) b) =
      .ok (s.buffer.set j (sampleWord (colorArg R G B CO) b).toNat) := pyWrite_ok hj hnn
  simp only [set, hw]

theorem set_single_err {s : NeoState} {n : Int} {R G B : Nat}
    {CO : Option Nat} {b : ℚ} (hj : pyIdx s.buffer.length n = none) :
    set s (some n) none none R G B CO b =
      ({ s with brightnessOffset := b }, some .indexError) := by
  have hw : pyWrite s.buffer n (sampleWord (colorArg R G B CO) b) = .error .indexError :=
    pyWrite_err hj
  simp only [set, hw]

theorem reset_single_ok {s : NeoState} {n : Int} {j : Nat}
    (hj : pyIdx s.buffer.length n = some j) :
    reset s (some n) none none =
      (transmit { s with buffer := s.buffer.set j 0 }, none) := by
  have hw : pyWrite s.buffer n 0 = .ok (s.buffer.set j (0 : Int).toNat) :=
    pyWrite_ok hj le_rfl
  simp only [reset, hw]
  rfl

theorem reset_single_err {s : NeoState} {n : Int}
    (hj : pyIdx s.buffer.length n = none) :
    reset s (some n) none none = (s, some .indexError) := by
  have hw : pyWrite s.buffer n (0 : Int) = .error .indexError := pyWrite_err hj
  simp only [reset, hw]

theorem reset_range_eq (s : NeoState) (a b : Int) :
    reset s none (some a) (some b) =
      ({ s with buffer := (writeRangeSt s.buffer (pyRange a (b + 1)) 0).1 },
        (writeRangeSt s.buffer (pyRange a (b + 1)) 0).2) := by
  simp only [reset]

theorem setBrightness_single_ok {s : NeoState} {n : Int} {j : Nat} {b : ℚ}
    (hj : pyIdx s.buffer.length n = some j) (hb : 0 ≤ b) :
    setBrightness s (some n) b none none =
      (transmit { s with brightnessOffset := b,
                         buffer := s.buffer.set j
                           (pyInt (b * ((s.buffer.getD j 0 : Nat) : ℚ))).toNat },
        none) := by
  have hnn : 0 ≤ pyInt (b * ((s.buffer.getD j 0 : Nat) : ℚ)) :=
    pyInt_nonneg (mul_nonneg hb (by positivity))
  have hstep := @scaleRangeSt_cons_ok s.buffer n j b ([] : List Int) hj hnn
  simp only [setBrightness, hstep]
  rfl

theorem setBrightness_single_err {s : NeoState} {n : Int} {b : ℚ}
    (hj : pyIdx s.buffer.length n = none) :
    setBrightness s (some n) b none none =
      ({ s with brightnessOffset := b }, some .indexError) := by
  have hstep := @scaleRangeSt_cons_err s.buffer n b ([] : List Int) hj
  simp only [setBrightness, hstep]

end Neopixel

namespace Neopixel

theorem pyIdx_neg {len : Nat} {i : Int} (h0 : -(len : Int) ≤ i) (h1 : i < 0) :
    pyIdx len i = some ((len : Int) + i).toNat := by
  have hnot : ¬(0 ≤ i ∧ i < (len : Int)) := by omega
  simp [pyIdx, hnot, h0, h1]

theorem pyRange_empty {a b : Int} (h : b ≤ a) : pyRange a b = [] := by
  have : (b - a).toNat = 0 := by omega
  simp [pyRange, this]

end Neopixel

namespace Neopixel

/-- C10: for every buffer state and every selector argument combination,
`setBrightness` with `BRIGHTNESS = 1` leaves every buffer word unchanged:
full brightness is the identity for the whole-word rescale path. -/
theorem C10_setBrightness_one_identity (s : NeoState)
    (LED_NUMBER START_LED STOP_LED : Option Int) :
    (setBrightness s LED_NUMBER 1 START_LED STOP_LED).1.buffer = s.buffer := by
  rcases START_LED with _ | a <;> rcases STOP_LED with _ | b
  · rcases LED_NUMBER with _ | n
    · cases hres : scaleRangeSt s.buffer (pyRange 0 s.numLED) 1 with
      | mk buf e =>
        have hbuf : buf = s.buffer := by
          have h := scaleRangeSt_one_fst (pyRange 0 s.numLED) s.buffer
          rw [hres] at h
          exact h
        cases e <;> simp [setBrightness, hres, transmit, hbuf]
    · cases hres : scaleRangeSt s.buffer [n] 1 with
      | mk buf e =>
        have hbuf : buf = s.buffer := by
          have h := scaleRangeSt_one_fst [n] s.buffer
          rw [hres] at h
          exact h
        cases e <;> simp [setBrightness, hres, transmit, hbuf]
  · simp [setBrightness]
  · simp [setBrightness]
  · cases hres : scaleRangeSt s.buffer (pyRange a (b + 1)) 1 with
    | mk buf e =>
      have hbuf : buf = s.buffer := by
        have h := scaleRangeSt_one_fst (pyRange a (b + 1)) s.buffer
        rw [hres] at h
        exact h
      cases e <;> simp [setBrightness, hres, transmit, hbuf]

/-- C5 counterexample: constructing with `led_count = 0` (< 1) raises no
error at all — there is no `ConfigurationError` validation in the code —
and yields an empty buffer. -/
theorem C5_counterexample :
    (init 0 22).2 = none ∧ (init 0 22).1.buffer = [] := by
  rw [init_eq]
  exact ⟨rfl, rfl⟩

/-- C5 amended: construction never validates `led_count`; it always succeeds,
allocating `max(led_count, 0)` zero words; in particular for `led_count ≥ 1`
the buffer has exactly `led_count` entries, all zero. -/
theorem C5_construction_no_validation (L P : Int) :
    (init L P).2 = none ∧
    (init L P).1.buffer = List.replicate L.toNat 0 ∧
    (1 ≤ L → ((init L P).1.buffer.length : Int) = L ∧
      ∀ w ∈ (init L P).1.buffer, w = 0) := by
  rw [init_eq]
  refine ⟨rfl, rfl, fun hL => ⟨?_, ?_⟩⟩
  · simp only [List.length_replicate]
    omega
  · intro w hw
    exact List.eq_of_mem_replicate hw

theorem C5_construction_no_validation_witness :
    (init 2 22).2 = none ∧
    (init 2 22).1.buffer = List.replicate (2 : Int).toNat 0 ∧
    (1 ≤ (2 : Int) → (((init 2 22).1.buffer.length : Int) = 2 ∧
      ∀ w ∈ (init 2 22).1.buffer, w = 0)) :=
  C5_construction_no_validation 2 22

/-- C8 counterexample: construction with one LED records exactly one
transmit (the all-off frame pushed by the `self.reset()` call inside
`__init__`), so the claim that no frame is pushed during construction is
false. -/
theorem C8_counterexample :
    (init 1 22).1.transmits = [[0]] ∧ (init 1 22).1.transmits ≠ [] := by
  rw [init_eq]
  exact ⟨rfl, by decide⟩

/-- C8 amended: construction pushes exactly one all-off frame to the
peripheral (via the `reset()` call at the end of `__init__`). -/
theorem C8_construction_transmits_once (L P : Int) :
    (init L P).1.transmits = [List.replicate L.toNat 0] := by
  rw [init_eq]

end Neopixel

namespace Neopixel

/-- C2 counterexample: a range-selector `reset(START_LED=0, STOP_LED=1)` on a
2-LED controller zeroes the selected words and raises nothing, but issues NO
transmit at all (the range branch of `reset` has no `put` call), refuting
"exactly one transmit per reset call". -/
theorem C2_counterexample :
    (reset (⟨2, 22, [5, 7], 1, []⟩ : NeoState) none (some 0) (some 1)).1.buffer
        = [0, 0] ∧
    (reset (⟨2, 22, [5, 7], 1, []⟩ : NeoState) none (some 0) (some 1)).2 = none ∧
    (reset (⟨2, 22, [5, 7], 1, []⟩ : NeoState) none (some 0) (some 1)).1.transmits
        = [] := by
  refine ⟨?_, ?_, ?_⟩ <;> decide

/-- C2 amended: `reset` zeroes every buffer word in the selector's range; the
single-index and all-LEDs forms then issue exactly one transmit of the full
updated buffer, while the inclusive-range form performs the writes but issues
no transmit. -/
theorem C2_reset_zeroes_selector (s : NeoState) (n a b : Int) (j : Nat)
    (hlen : s.numLED ≤ (s.buffer.length : Int))
    (hj : pyIdx s.buffer.length n = some j)
    (ha : 0 ≤ a) (hb : b < (s.buffer.length : Int)) :
    ((reset s none none none).2 = none ∧
     (∀ k : Nat, (reset s none none none).1.buffer[k]? =
        if (k : Int) < s.numLED then some 0 else s.buffer[k]?) ∧
     (reset s none none none).1.transmits =
        s.transmits ++ [(reset s none none none).1.buffer]) ∧
    ((reset s (some n) none none).2 = none ∧
     (reset s (some n) none none).1.buffer = s.buffer.set j 0 ∧
     (reset s (some n) none none).1.transmits = s.transmits ++ [s.buffer.set j 0]) ∧
    ((reset s none (some a) (some b)).2 = none ∧
     (∀ k : Nat, (reset s none (some a) (some b)).1.buffer[k]? =
        if a ≤ (k : Int) ∧ (k : Int) ≤ b then some 0 else s.buffer[k]?) ∧
     (reset s none (some a) (some b)).1.transmits = s.transmits) := by
  have hvalid : ∀ i ∈ pyRange 0 s.numLED, 0 ≤ i ∧ i < (s.buffer.length : Int) := by
    intro i hi
    rw [mem_pyRange] at hi
    omega
  have hall := writeRangeSt_ok le_rfl (pyRange 0 s.numLED) s.buffer hvalid
  have hvalid2 : ∀ i ∈ pyRange a (b + 1), 0 ≤ i ∧ i < (s.buffer.length : Int) := by
    intro i hi
    rw [mem_pyRange] at hi
    omega
  have hrng := writeRangeSt_ok le_rfl (pyRange a (b + 1)) s.buffer hvalid2
  refine ⟨?_, ?_, ?_⟩
  · cases hres : writeRangeSt s.buffer (pyRange 0 s.numLED) 0 with
    | mk buf e =>
      rw [hres] at hall
      obtain ⟨he, hlenbuf, hget⟩ := hall
      simp only at he
      subst he
      refine ⟨by simp [reset, hres], ?_, by simp [reset, hres, transmit]⟩
      intro k
      have hk := hget k
      simp only at hk
      simp only [reset, hres]
      simp only [transmit]
      rw [hk]
      by_cases hklt : (k : Int) < s.numLED
      · rw [if_pos (mem_pyRange.mpr ⟨by omega, by omega⟩), if_pos hklt]
        rfl
      · rw [if_neg (fun hmem => hklt (mem_pyRange.mp hmem).2), if_neg hklt]
  · rw [reset_single_ok hj]
    exact ⟨rfl, by simp [transmit], by simp [transmit]⟩
  · cases hres : writeRangeSt s.buffer (pyRange a (b + 1)) 0 with
    | mk buf e =>
      rw [hres] at hrng
      obtain ⟨he, hlenbuf, hget⟩ := hrng
      simp only at he
      subst he
      refine ⟨by simp [reset, hres], ?_, by simp [reset, hres]⟩
      intro k
      have hk := hget k
      simp only at hk
      simp only [reset, hres]
      rw [hk]
      by_cases hkin : a ≤ (k : Int) ∧ (k : Int) ≤ b
      · rw [if_pos (mem_pyRange.mpr ⟨by omega, by omega⟩), if_pos hkin]
        rfl
      · rw [if_neg (fun hmem => hkin ⟨(mem_pyRange.mp hmem).1,
          by have := (mem_pyRange.mp hmem).2; omega⟩), if_neg hkin]

theorem C2_reset_zeroes_selector_witness :
    ((⟨2, 22, [5, 7], 1, []⟩ : NeoState).numLED
        ≤ ((⟨2, 22, [5, 7], 1, []⟩ : NeoState).buffer.length : Int)) ∧
    pyIdx (⟨2, 22, [5, 7], 1, []⟩ : NeoState).buffer.length 1 = some 1 ∧
    (0 : Int) ≤ 0 ∧
    ((1 : Int) < ((⟨2, 22, [5, 7], 1, []⟩ : NeoState).buffer.length : Int)) ∧
    (((reset (⟨2, 22, [5, 7], 1, []⟩ : NeoState) none none none).2 = none ∧
     (∀ k : Nat, (reset (⟨2, 22, [5, 7], 1, []⟩ : NeoState) none none none).1.buffer[k]? =
        if (k : Int) < (⟨2, 22, [5, 7], 1, []⟩ : NeoState).numLED then some 0
        else (⟨2, 22, [5, 7], 1, []⟩ : NeoState).buffer[k]?) ∧
     (reset (⟨2, 22, [5, 7], 1, []⟩ : NeoState) none none none).1.transmits =
        (⟨2, 22, [5, 7], 1, []⟩ : NeoState).transmits ++
          [(reset (⟨2, 22, [5, 7], 1, []⟩ : NeoState) none none none).1.buffer]) ∧
    ((reset (⟨2, 22, [5, 7], 1, []⟩ : NeoState) (some 1) none none).2 = none ∧
     (reset (⟨2, 22, [5, 7], 1, []⟩ : NeoState) (some 1) none none).1.buffer =
        (⟨2, 22, [5, 7], 1, []⟩ : NeoState).buffer.set 1 0 ∧
     (reset (⟨2, 22, [5, 7], 1, []⟩ : NeoState) (some 1) none none).1.transmits =
        (⟨2, 22, [5, 7], 1, []⟩ : NeoState).transmits ++
          [(⟨2, 22, [5, 7], 1, []⟩ : NeoState).buffer.set 1 0]) ∧
    ((reset (⟨2, 22, [5, 7], 1, []⟩ : NeoState) none (some 0) (some 1)).2 = none ∧
     (∀ k : Nat, (reset (⟨2, 22, [5, 7], 1, []⟩ : NeoState) none (some 0) (some 1)).1.buffer[k]? =
        if (0 : Int) ≤ (k : Int) ∧ (k : Int) ≤ 1 then some 0
        else (⟨2, 22, [5, 7], 1, []⟩ : NeoState).buffer[k]?) ∧
     (reset (⟨2, 22, [5, 7], 1, []⟩ : NeoState) none (some 0) (some 1)).1.transmits =
        (⟨2, 22, [5, 7], 1, []⟩ : NeoState).transmits)) :=
  ⟨by decide, by decide, by decide, by decide,
    C2_reset_zeroes_selector ⟨2, 22, [5, 7], 1, []⟩ 1 0 1 1
      (by decide) (by decide) (by decide) (by decide)⟩

end Neopixel

namespace Neopixel

/-- C3 counterexample: a range selector with `start > stop` (here `[1, 0]`)
does not fail at all — no `IndexOutOfRangeError` exists in the code and the
empty Python `range` silently writes nothing. -/
theorem C3_counterexample :
    (reset (⟨2, 22, [5, 7], 1, []⟩ : NeoState) none (some 1) (some 0)).2 = none ∧
    (reset (⟨2, 22, [5, 7], 1, []⟩ : NeoState) none (some 1) (some 0)).1.buffer
        = [5, 7] := by
  exact ⟨by decide, by decide⟩

/-- C3 amended: there is no selector validation and no custom error class: a
single index outside `-led_count .. led_count-1` raises the runtime
`IndexError` on `set`, `reset` and `setBrightness`; a range with
`start > stop` writes nothing and raises nothing; and a negative single index
`m` with `-led_count ≤ m < 0` wraps Python-style to `led_count + m` and
succeeds. -/
theorem C3_no_custom_bounds_check (s : NeoState) (n m a b : Int) (C : Nat)
    (hn : pyIdx s.buffer.length n = none)
    (hab : b < a)
    (hm0 : -(s.buffer.length : Int) ≤ m) (hm1 : m < 0) :
    ((set s (some n) none none 255 255 255 (some C) 1).2 = some .indexError ∧
     (reset s (some n) none none).2 = some .indexError ∧
     (setBrightness s (some n) 1 none none).2 = some .indexError) ∧
    ((reset s none (some a) (some b)).2 = none ∧
     (reset s none (some a) (some b)).1.buffer = s.buffer) ∧
    ((reset s (some m) none none).2 = none ∧
     (reset s (some m) none none).1.buffer =
        s.buffer.set ((s.buffer.length : Int) + m).toNat 0) := by
  refine ⟨⟨?_, ?_, ?_⟩, ⟨?_, ?_⟩, ⟨?_, ?_⟩⟩
  · rw [set_single_err hn]
  · rw [reset_single_err hn]
  · rw [setBrightness_single_err hn]
  · rw [reset_range_eq, pyRange_empty (by omega)]
    rfl
  · rw [reset_range_eq, pyRange_empty (by omega)]
    rfl
  · rw [reset_single_ok (pyIdx_neg hm0 hm1)]
  · rw [reset_single_ok (pyIdx_neg hm0 hm1)]
    simp [transmit]

theorem C3_no_custom_bounds_check_witness :
    pyIdx (⟨2, 22, [5, 7], 1, []⟩ : NeoState).buffer.length 2 = none ∧
    (0 : Int) < 1 ∧
    (-((⟨2, 22, [5, 7], 1, []⟩ : NeoState).buffer.length : Int) ≤ -1) ∧
    (-1 : Int) < 0 ∧
    (((set (⟨2, 22, [5, 7], 1, []⟩ : NeoState) (some 2) none none 255 255 255
        (some 3) 1).2 = some .indexError ∧
      (reset (⟨2, 22, [5, 7], 1, []⟩ : NeoState) (some 2) none none).2
        = some .indexError ∧
      (setBrightness (⟨2, 22, [5, 7], 1, []⟩ : NeoState) (some 2) 1 none none).2
        = some .indexError) ∧
     ((reset (⟨2, 22, [5, 7], 1, []⟩ : NeoState) none (some 1) (some 0)).2 = none ∧
      (reset (⟨2, 22, [5, 7], 1, []⟩ : NeoState) none (some 1) (some 0)).1.buffer
        = (⟨2, 22, [5, 7], 1, []⟩ : NeoState).buffer) ∧
     ((reset (⟨2, 22, [5, 7], 1, []⟩ : NeoState) (some (-1)) none none).2 = none ∧
      (reset (⟨2, 22, [5, 7], 1, []⟩ : NeoState) (some (-1)) none none).1.buffer =
        (⟨2, 22, [5, 7], 1, []⟩ : NeoState).buffer.set
          (((⟨2, 22, [5, 7], 1, []⟩ : NeoState).buffer.length : Int) + -1).toNat 0)) :=
  ⟨by decide, by decide, by decide, by decide,
    C3_no_custom_bounds_check ⟨2, 22, [5, 7], 1, []⟩ 2 (-1) 1 0 3
      (by decide) (by decide) (by decide) (by decide)⟩

/-- C4 counterexample: a failing range selector is NOT atomic: with 2 LEDs,
`set(START_LED=0, STOP_LED=5, COLOR=10)` overwrites both existing words
before the loop raises `IndexError` at index 2, so the buffer is neither
fully written (6 slots were requested) nor left as it was. -/
theorem C4_counterexample :
    (set (⟨2, 22, [1, 2], 1, []⟩ : NeoState) none (some 0) (some 5) 255 255 255
        (some 10) 1).2 = some .indexError ∧
    (set (⟨2, 22, [1, 2], 1, []⟩ : NeoState) none (some 0) (some 5) 255 255 255
        (some 10) 1).1.buffer = [10, 10] ∧
    ([10, 10] : List Nat) ≠ [1, 2] := by
  have hs : sampleWord (colorArg 255 255 255 (some 10)) 1 = (10 : Int) := by
    rw [show colorArg 255 255 255 (some 10) = 10 from rfl,
      sampleWord_one_of_lt (by norm_num)]
    decide
  refine ⟨?_, ?_, by decide⟩ <;>
  · simp only [set, hs]
    decide

/-- C4 amended: a failing single-index selector writes nothing (the buffer is
left exactly as it was), but a failing range selector first writes every
in-bounds index it visits before the failure, leaving a partially updated
buffer. -/
theorem C4_failed_selector_buffer_effect (s : NeoState) (n : Int) (C : Nat) (b : ℚ)
    (hn : pyIdx s.buffer.length n = none) :
    ((set s (some n) none none 255 255 255 (some C) b).1.buffer = s.buffer ∧
     (reset s (some n) none none).1.buffer = s.buffer ∧
     (setBrightness s (some n) b none none).1.buffer = s.buffer) ∧
    ((set (⟨2, 22, [1, 2], 1, []⟩ : NeoState) none (some 0) (some 5) 255 255 255
        (some 10) 1).1.buffer = [10, 10] ∧
     (set (⟨2, 22, [1, 2], 1, []⟩ : NeoState) none (some 0) (some 5) 255 255 255
        (some 10) 1).2 = some .indexError) := by
  have hs : sampleWord (colorArg 255 255 255 (some 10)) 1 = (10 : Int) := by
    rw [show colorArg 255 255 255 (some 10) = 10 from rfl,
      sampleWord_one_of_lt (by norm_num)]
    decide
  refine ⟨⟨?_, ?_, ?_⟩, ?_, ?_⟩
  · rw [set_single_err hn]
  · rw [reset_single_err hn]
  · rw [setBrightness_single_err hn]
  · simp only [set, hs]
    decide
  · simp only [set, hs]
    decide

theorem C4_failed_selector_buffer_effect_witness :
    pyIdx (⟨1, 22, [3], 1, []⟩ : NeoState).buffer.length 5 = none ∧
    (((set (⟨1, 22, [3], 1, []⟩ : NeoState) (some 5) none none 255 255 255
        (some 0) 1).1.buffer = (⟨1, 22, [3], 1, []⟩ : NeoState).buffer ∧
      (reset (⟨1, 22, [3], 1, []⟩ : NeoState) (some 5) none none).1.buffer
        = (⟨1, 22, [3], 1, []⟩ : NeoState).buffer ∧
      (setBrightness (⟨1, 22, [3], 1, []⟩ : NeoState) (some 5) 1 none none).1.buffer
        = (⟨1, 22, [3], 1, []⟩ : NeoState).buffer) ∧
     ((set (⟨2, 22, [1, 2], 1, []⟩ : NeoState) none (some 0) (some 5) 255 255 255
        (some 10) 1).1.buffer = [10, 10] ∧
      (set (⟨2, 22, [1, 2], 1, []⟩ : NeoState) none (some 0) (some 5) 255 255 255
        (some 10) 1).2 = some .indexError)) :=
  ⟨by decide,
    C4_failed_selector_buffer_effect ⟨1, 22, [3], 1, []⟩ 5 0 1 (by decide)⟩

end Neopixel

namespace Neopixel

theorem floor_half_nat (w : Nat) :
    ⌊((w : Nat) : ℚ) * (1 / 2)⌋ = ((w / 2 : Nat) : Int) := by
  have h1 : ((w : Nat) : ℚ) * (1 / 2) = ((w : ℤ) : ℚ) / ((2 : ℕ) : ℚ) := by
    push_cast
    ring
  rw [h1, Rat.floor_intCast_div_natCast]
  omega

/-- C6: `set` scales each 8-bit channel of the color word independently by
`BRIGHTNESS` (each channel becomes `floor(channel * b)`) and only then
repacks; in particular `set(range=[0,2], COLOR=WHITE, BRIGHTNESS=0.5)` stores
`127` in every channel of all three affected words (`0x7F7F7F`), which
differs from a post-pack multiply of the packed integer. -/
theorem C6_brightness_per_channel (c : Nat) (b : ℚ) (hb0 : 0 ≤ b) (hb1 : b ≤ 1) :
    sampleWord c b =
      ⌊(((c >>> 16) &&& 255 : Nat) : ℚ) * b⌋ * 2 ^ 16 +
        ⌊(((c >>> 8) &&& 255 : Nat) : ℚ) * b⌋ * 2 ^ 8 +
        ⌊((c &&& 255 : Nat) : ℚ) * b⌋ ∧
    (set (init 3 22).1 none (some 0) (some 2) 255 255 255 (some WHITE)
        (1 / 2)).1.buffer = [0x7F7F7F, 0x7F7F7F, 0x7F7F7F] ∧
    sampleWord WHITE (1 / 2) ≠ ⌊((WHITE : Nat) : ℚ) * (1 / 2)⌋ := by
  have hhalf : (0 : ℚ) ≤ 1 / 2 := by norm_num
  have e1 : ((WHITE >>> 16) &&& 255 : Nat) = 255 := by decide
  have e2 : ((WHITE >>> 8) &&& 255 : Nat) = 255 := by decide
  have e3 : (WHITE &&& 255 : Nat) = 255 := by decide
  have hsw : sampleWord WHITE (1 / 2) = (0x7F7F7F : Int) := by
    rw [sampleWord_eq_floor hhalf, e1, e2, e3, floor_half_nat]
    decide
  refine ⟨sampleWord_eq_floor hb0 c, ?_, ?_⟩
  · rw [init_eq]
    simp only [set, show colorArg 255 255 255 (some WHITE) = WHITE from rfl, hsw]
    decide
  · rw [hsw, floor_half_nat]
    decide

theorem C6_brightness_per_channel_witness :
    (0 ≤ (1 / 2 : ℚ)) ∧ ((1 / 2 : ℚ) ≤ 1) ∧
    (sampleWord 0 (1 / 2) =
      ⌊(((0 >>> 16) &&& 255 : Nat) : ℚ) * (1 / 2)⌋ * 2 ^ 16 +
        ⌊(((0 >>> 8) &&& 255 : Nat) : ℚ) * (1 / 2)⌋ * 2 ^ 8 +
        ⌊((0 &&& 255 : Nat) : ℚ) * (1 / 2)⌋ ∧
    (set (init 3 22).1 none (some 0) (some 2) 255 255 255 (some WHITE)
        (1 / 2)).1.buffer = [0x7F7F7F, 0x7F7F7F, 0x7F7F7F] ∧
    sampleWord WHITE (1 / 2) ≠ ⌊((WHITE : Nat) : ℚ) * (1 / 2)⌋) :=
  ⟨by norm_num, by norm_num,
    C6_brightness_per_channel 0 (1 / 2) (by norm_num) (by norm_num)⟩

/-- C7: `setBrightness` multiplies the whole already-packed buffer word by
the brightness and truncates — not per channel — so it compounds: two
successive applications at `0.5` yield `floor(floor(w*0.5)*0.5) = w/2/2`,
and on the word `0x1FF` the whole-word result `0xFF` differs from the
per-channel rescale (`sampleWord 0x1FF 0.5 = 0x7F`). -/
theorem C7_whole_word_rescale (s : NeoState) (n : Int) (j : Nat) (b : ℚ)
    (hj : pyIdx s.buffer.length n = some j) (hb : 0 ≤ b) :
    (setBrightness s (some n) b none none).1.buffer =
      s.buffer.set j (pyInt (b * ((s.buffer.getD j 0 : Nat) : ℚ))).toNat ∧
    (setBrightness (setBrightness s (some n) (1 / 2) none none).1 (some n) (1 / 2)
        none none).1.buffer = s.buffer.set j (s.buffer.getD j 0 / 2 / 2) ∧
    (setBrightness (⟨1, 22, [0x1FF], 1, []⟩ : NeoState) (some 0) (1 / 2)
        none none).1.buffer = [0xFF] ∧
    ((0xFF : Int) ≠ sampleWord 0x1FF (1 / 2)) := by
  have hhalf : (0 : ℚ) ≤ 1 / 2 := by norm_num
  have hjlen := pyIdx_lt hj
  refine ⟨?_, ?_, ?_, ?_⟩
  · rw [setBrightness_single_ok hj hb]
    simp [transmit]
  · have h1 := setBrightness_single_ok hj hhalf
    have hb1 : (setBrightness s (some n) (1 / 2) none none).1.buffer =
        s.buffer.set j (s.buffer.getD j 0 / 2) := by
      rw [h1]
      simp only [transmit]
      rw [pyInt_half]
      simp only [Int.toNat_ofNat]
    have hj2 : pyIdx (setBrightness s (some n) (1 / 2) none none).1.buffer.length n
        = some j := by
      rw [hb1]
      simpa using hj
    have h2 := setBrightness_single_ok hj2 hhalf
    have hgd : ((setBrightness s (some n) (1 / 2) none none).1.buffer).getD j 0 =
        s.buffer.getD j 0 / 2 := by
      rw [hb1, List.getD_eq_getElem?_getD, List.getElem?_set_self hjlen]
      rfl
    rw [h2]
    simp only [transmit]
    rw [hgd, pyInt_half, hb1]
    simp only [Int.toNat_ofNat, List.set_set]
  · have hj0 : pyIdx (⟨1, 22, [0x1FF], 1, []⟩ : NeoState).buffer.length 0 = some 0 := by
      decide
    have h3 := @setBrightness_single_ok ⟨1, 22, [0x1FF], 1, []⟩ 0 0 (1 / 2) hj0 hhalf
    rw [h3]
    have hgd0 : (([0x1FF] : List Nat).getD 0 0) = 0x1FF := rfl
    simp only [transmit, hgd0, pyInt_half]
    decide
  · have e1 : ((0x1FF >>> 16) &&& 255 : Nat) = 0 := by decide
    have e2 : ((0x1FF >>> 8) &&& 255 : Nat) = 1 := by decide
    have e3 : (0x1FF &&& 255 : Nat) = 255 := by decide
    rw [sampleWord_eq_floor hhalf, e1, e2, e3, floor_half_nat, floor_half_nat,
      floor_half_nat]
    decide

theorem C7_whole_word_rescale_witness :
    pyIdx (⟨1, 22, [255], 1, []⟩ : NeoState).buffer.length 0 = some 0 ∧
    (0 ≤ (1 / 2 : ℚ)) ∧
    ((setBrightness (⟨1, 22, [255], 1, []⟩ : NeoState) (some 0) (1 / 2)
        none none).1.buffer =
      (⟨1, 22, [255], 1, []⟩ : NeoState).buffer.set 0
        (pyInt ((1 / 2) *
          (((⟨1, 22, [255], 1, []⟩ : NeoState).buffer.getD 0 0 : Nat) : ℚ))).toNat ∧
    (setBrightness
        (setBrightness (⟨1, 22, [255], 1, []⟩ : NeoState) (some 0) (1 / 2) none none).1
        (some 0) (1 / 2) none none).1.buffer =
      (⟨1, 22, [255], 1, []⟩ : NeoState).buffer.set 0
        ((⟨1, 22, [255], 1, []⟩ : NeoState).buffer.getD 0 0 / 2 / 2) ∧
    (setBrightness (⟨1, 22, [0x1FF], 1, []⟩ : NeoState) (some 0) (1 / 2)
        none none).1.buffer = [0xFF] ∧
    ((0xFF : Int) ≠ sampleWord 0x1FF (1 / 2))) :=
  ⟨by decide, by norm_num,
    C7_whole_word_rescale ⟨1, 22, [255], 1, []⟩ 0 0 (1 / 2) (by decide) (by norm_num)⟩

end Neopixel

namespace Neopixel

/-- C9: at full brightness the packed-COLOR path of `set` stores the 24-bit
input verbatim at the selected index (the GRB extraction and GRB repacking
cancel, with no reordering), while the separate-components path stores
`G<<16 | R<<8 | B`; for the same nominal color `(r, g, b)` the two input
forms therefore store different words whenever `r ≠ g`. -/
theorem C9_color_path_identity (s : NeoState) (n : Int) (j : Nat) (c r g b : Nat)
    (hj : pyIdx s.buffer.length n = some j) (hc : c < 2 ^ 24)
    (hr : r < 256) (hg : g < 256) (hb : b < 256) :
    (set s (some n) none none 255 255 255 (some c) 1).1.buffer = s.buffer.set j c ∧
    (set s (some n) none none r g b none 1).1.buffer =
      s.buffer.set j (g <<< 16 ||| r <<< 8 ||| b) ∧
    (r ≠ g → RGB r g b ≠ g <<< 16 ||| r <<< 8 ||| b) := by
  have hCB : colorArg r g b none = g <<< 16 ||| r <<< 8 ||| b := rfl
  have hcomp : g <<< 16 ||| r <<< 8 ||| b = g * 65536 + r * 256 + b := RGB_eq hr hb
  refine ⟨?_, ?_, ?_⟩
  · have hcc : colorArg 255 255 255 (some c) = c := rfl
    have h1 : 0 ≤ sampleWord (colorArg 255 255 255 (some c)) 1 := by
      rw [hcc, sampleWord_one_of_lt hc]
      positivity
    rw [set_single_ok hj h1, hcc, sampleWord_one_of_lt hc]
    simp [transmit]
  · have hCb : colorArg r g b none < 2 ^ 24 := by
      rw [hCB, hcomp]
      omega
    have h2 : 0 ≤ sampleWord (colorArg r g b none) 1 := by
      rw [sampleWord_one_of_lt hCb]
      positivity
    rw [set_single_ok hj h2, sampleWord_one_of_lt hCb, hCB]
    simp [transmit]
  · intro hne heq
    rw [RGB_eq hg hb, hcomp] at heq
    omega

theorem C9_color_path_identity_witness :
    pyIdx (⟨1, 22, [0], 1, []⟩ : NeoState).buffer.length 0 = some 0 ∧
    (5 : Nat) < 2 ^ 24 ∧ (1 : Nat) < 256 ∧ (2 : Nat) < 256 ∧ (3 : Nat) < 256 ∧
    ((set (⟨1, 22, [0], 1, []⟩ : NeoState) (some 0) none none 255 255 255
        (some 5) 1).1.buffer = (⟨1, 22, [0], 1, []⟩ : NeoState).buffer.set 0 5 ∧
     (set (⟨1, 22, [0], 1, []⟩ : NeoState) (some 0) none none 1 2 3 none 1).1.buffer =
        (⟨1, 22, [0], 1, []⟩ : NeoState).buffer.set 0 (2 <<< 16 ||| 1 <<< 8 ||| 3) ∧
     ((1 : Nat) ≠ 2 → RGB 1 2 3 ≠ 2 <<< 16 ||| 1 <<< 8 ||| 3)) :=
  ⟨by decide, by norm_num, by norm_num, by norm_num, by norm_num,
    C9_color_path_identity ⟨1, 22, [0], 1, []⟩ 0 0 5 1 2 3
      (by decide) (by norm_num) (by norm_num) (by norm_num) (by norm_num)⟩

/-- C1 (code bug), evaluation at the failing input: with two LEDs,
`set(LED_NUMBER=0, COLOR=RED, BRIGHTNESS=1.0)` stores `0xFF0000` at index 0
(other indices unchanged).  RED's channels are `(r, g, b) = (255, 0, 0)`, and
repacking them in the fixed GRB output order (`green<<16 | red<<8 | blue`)
gives `0x00FF00`, not `0xFF0000`: the `COLOR` path keeps the RGB-packed
constant verbatim, so the red value ends up in the green output channel. -/
theorem C1_channel_order_eval :
    (set (init 2 22).1 (some 0) none none 255 255 255 (some RED) 1).1.buffer
        = [0xFF0000, 0] ∧
    ((RED >>> 16) &&& 255 = 255 ∧ (RED >>> 8) &&& 255 = 0 ∧ RED &&& 255 = 0) ∧
    (((RED >>> 8) &&& 255) <<< 16 ||| ((RED >>> 16) &&& 255) <<< 8 ||| (RED &&& 255))
        = 0x00FF00 ∧
    (0xFF0000 : Nat) ≠ 0x00FF00 := by
  have hsw : sampleWord (colorArg 255 255 255 (some RED)) 1 = ((0xFF0000 : Nat) : Int) := by
    rw [show colorArg 255 255 255 (some RED) = RED from rfl,
      sampleWord_one_of_lt (by decide)]
    decide
  refine ⟨?_, by decide, by decide, by decide⟩
  rw [init_eq]
  simp only [set, hsw]
  decide

end Neopixel
